import Mathlib

/-!
# PhanesEngine math kernel: 3x3 matrices (`Math/Matrix3.hpp`)

A shallow embedding of `TMatrix3<T, S>` and of the free functions and operators
of `Matrix3.hpp`.  The element type `T` (a C++ floating-point type) is embedded
as an arbitrary field `α` with exact arithmetic; rounding is not modelled.

An object of the struct holds the three columns `c0`, `c1`, `c2` and, in
storage of its own, the array `data`.  The constructors and the operators
write the columns only.  The accessors `operator()` and `operator[]` index
`this->m`, a member the struct does not declare; the name is read as the array
`data`.  The content the array of a new object has is an argument `storage` of
every function that builds one, and `filled` is the object after its array was
written, through the accessor, with the entries of its columns.

Mutating functions (`InverseV`, `TransposeV`) take the matrix by reference and
return it by value: they are embedded as functions to a pair
`(returned value, final content of the argument)`.

The 2D vector functions `Lerp`, `LerpUnclamped`, `Reflect`, `DotP` and the
vector `*` are declared in `Math/Vector2.h`; their bodies are not in the
sources and they are modelled from the specification.

Names the source uses without declaring them (`ss` in the scalar `*=`, `m1` in
`operator- (m, s)`) are parameters of the functions that use them.
-/

namespace Phanes

/-! ## Vectors (`Vector3.hpp` is not part of the sources) -/

/-- Modelled from the spec: the 3D vector type `TVector3<T, S>` of `Vector3.hpp`
(missing), "an ordered tuple of N scalars" with the named fields `x`, `y`, `z`;
`TVector3(x, y, z)` is the component-list constructor. -/
structure TVector3 (α : Type) where
  x : α
  y : α
  z : α
deriving DecidableEq, Repr

namespace TVector3

variable {α : Type}

/-- Modelled from the spec: the indexed view of a vector ("the named fields and
the indexed component array are two views over the same underlying storage"):
component 0 is `x`, component 1 is `y`, component 2 is `z`. -/
def comp (v : TVector3 α) : Fin 3 → α
  | 0 => v.x
  | 1 => v.y
  | 2 => v.z

/-- Modelled from the spec: a write to one component through the indexed view;
the other two components keep their value. -/
def setComp (v : TVector3 α) (i : Fin 3) (a : α) : TVector3 α :=
  match i with
  | 0 => { v with x := a }
  | 1 => { v with y := a }
  | 2 => { v with z := a }

/-- Modelled from the spec: `operator+ (TVector3, TVector3)` of `Vector3.hpp`
(missing), the componentwise sum. -/
def operatorAdd [Add α] (v1 v2 : TVector3 α) : TVector3 α :=
  ⟨v1.x + v2.x, v1.y + v2.y, v1.z + v2.z⟩

/-- Modelled from the spec: `operator*= (TVector3&, T)` of `Vector3.hpp`
(missing), the vector scaled by a scalar, every component multiplied. -/
def operatorMulAssignScalar [Mul α] (v : TVector3 α) (s : α) : TVector3 α :=
  ⟨v.x * s, v.y * s, v.z * s⟩

/-- Modelled from the spec: `operator*= (TVector3&, TVector3)` of `Vector3.hpp`
(missing), used by the matrix `*=`: the componentwise product of two columns
("column_i(result) = column_i(m1) ⊙ column_i(m2)"). -/
def operatorMulAssign [Mul α] (v1 v2 : TVector3 α) : TVector3 α :=
  ⟨v1.x * v2.x, v1.y * v2.y, v1.z * v2.z⟩

/-- Modelled from the spec: `operator== (TVector3, TVector3)` of `Vector3.hpp`
(missing) for a floating element type: "equal iff every component's absolute
difference is below the shared epsilon".  The epsilon `P_FLT_INAC` is not
defined in the sources and is the parameter `eps`. -/
def operatorEq [LinearOrderedField α] (eps : α) (v1 v2 : TVector3 α) : Bool :=
  decide (|v1.x - v2.x| < eps) && decide (|v1.y - v2.y| < eps) && decide (|v1.z - v2.z| < eps)

end TVector3

/-- Modelled from the spec: `CrossP` of `Vector3.hpp` (missing), "the
right-handed cross product (right-hand rule: x→y→z cyclic)". -/
def CrossP {α : Type} [Mul α] [Sub α] (v1 v2 : TVector3 α) : TVector3 α :=
  ⟨v1.y * v2.z - v1.z * v2.y, v1.z * v2.x - v1.x * v2.z, v1.x * v2.y - v1.y * v2.x⟩

/-! ## The matrix type -/

/-- The struct `TMatrix3<T, S>` with its data members as declared: the
anonymous union, whose only member is the anonymous struct of the columns
`c0`, `c1`, `c2`, and, after the closing brace of the union, the array member
`T data[3][3]`, which has storage of its own (`data c r` is `data[c][r]`). -/
structure TMatrix3 (α : Type) where
  c0 : TVector3 α
  c1 : TVector3 α
  c2 : TVector3 α
  data : Fin 3 → Fin 3 → α

namespace TMatrix3

variable {α : Type}

/-- The constructor `TMatrix3(T n00, T n01, T n02, T n10, ..., T n22)`:
parameters in row-major order, `nXY = n[Row][Col]`, assigned to the columns.
`data` is not assigned and keeps the content `storage` that the memory of the
object had. -/
def ofParams (storage : Fin 3 → Fin 3 → α) (n00 n01 n02 n10 n11 n12 n20 n21 n22 : α) :
    TMatrix3 α :=
  { c0 := ⟨n00, n10, n20⟩
    c1 := ⟨n01, n11, n21⟩
    c2 := ⟨n02, n12, n22⟩
    data := storage }

/-- The copy constructor `TMatrix3(const TMatrix3& m1)`: the three columns are
copied; `data` is not assigned and keeps the content `storage` of the memory of
the new object. -/
def copy (storage : Fin 3 → Fin 3 → α) (m1 : TMatrix3 α) : TMatrix3 α :=
  { c0 := m1.c0
    c1 := m1.c1
    c2 := m1.c2
    data := storage }

/-- The array that both accessors index as `this->m`.  The struct declares no
member `m`; its only array member is `data`, and the name is read as that
array, which has storage of its own and is no view of the columns.  Indices
outside 0..2 are undefined behaviour in the source and are excluded by the
index type. -/
def m (M : TMatrix3 α) (c r : Fin 3) : α :=
  M.data c r

/-- The accessor `operator[] (int m)`: the row `this->m[m]` of the array, read
as a vector. -/
def col (M : TMatrix3 α) (m : Fin 3) : TVector3 α :=
  ⟨M.m m 0, M.m m 1, M.m m 2⟩

/-- The accessor `operator() (int n, int m) const`, `return this->m[m][n]`:
row `n`, column `m`. -/
def get (M : TMatrix3 α) (n m : Fin 3) : α :=
  M.m m n

/-- A write of `a` through the reference `this->m[m][n]` that the non-const
accessor `operator() (int n, int m)` returns: the array element is replaced;
the columns are not touched. -/
def set (M : TMatrix3 α) (n m : Fin 3) (a : α) : TMatrix3 α :=
  { M with data := fun c r => if c = m ∧ r = n then a else M.data c r }

/-- The column member `c0`, `c1` or `c2`, by its number. -/
def column (M : TMatrix3 α) : Fin 3 → TVector3 α
  | 0 => M.c0
  | 1 => M.c1
  | 2 => M.c2

/-- Component `r` of the column member number `c`. -/
def entry (M : TMatrix3 α) (r c : Fin 3) : α :=
  (M.column c).comp r

/-- A write of `a` to component `n` of the column member number `m` (the
column-vector view, `c0.x = a` and the like); `data` is not touched. -/
def writeColumn (M : TMatrix3 α) (n m : Fin 3) (a : α) : TMatrix3 α :=
  match m with
  | 0 => { M with c0 := M.c0.setComp n a }
  | 1 => { M with c1 := M.c1.setComp n a }
  | 2 => { M with c2 := M.c2.setComp n a }

/-- The object whose array was written, through the non-const accessor
`M(r, c) = v`, at every place with the component `r` of the column member
number `c`: its array then holds the entries of its columns (the nine writes
are spelled out in `filled_eq_writes`). -/
def filled (M : TMatrix3 α) : TMatrix3 α :=
  { M with data := fun c r => (M.column c).comp r }

/-- The operator `operator*= (TMatrix3& m1, T s)`.  The body scales the three
columns by `ss`, not by its parameter `s`; `ss` is declared nowhere in the
sources and is taken as a parameter.  The result is the new content of `m1`;
the value returned is a copy of it. -/
def operatorMulAssignScalar [Mul α] (ss : α) (m1 : TMatrix3 α) (_s : α) : TMatrix3 α :=
  { m1 with
    c0 := m1.c0.operatorMulAssignScalar ss
    c1 := m1.c1.operatorMulAssignScalar ss
    c2 := m1.c2.operatorMulAssignScalar ss }

/-- The operator `operator*= (TMatrix3& m1, const TMatrix3& m2)`, "Matrix on
matrix (componentwise)": each column of `m1` is multiplied by the column of
`m2`.  The result is the new content of `m1`; the value returned is a copy of
it. -/
def operatorMulAssign [Mul α] (m1 m2 : TMatrix3 α) : TMatrix3 α :=
  { m1 with
    c0 := m1.c0.operatorMulAssign m2.c0
    c1 := m1.c1.operatorMulAssign m2.c1
    c2 := m1.c2.operatorMulAssign m2.c2 }

/-- The constructor `TMatrix3(const TVector3& v1, const TVector3& v2, const
TVector3 v3)`: the three columns; `data` keeps the content `storage`. -/
def ofColumns (storage : Fin 3 → Fin 3 → α) (v1 v2 v3 : TVector3 α) : TMatrix3 α :=
  { c0 := v1
    c1 := v2
    c2 := v3
    data := storage }

/-- The operator `operator* (const TMatrix3& m1, const TMatrix3& m2)`: the
matrix built from the columns `m1.c0 + m2.c0`, `m1.c1 + m2.c1`,
`m1.c2 + m2.c2`. -/
def operatorMul [Add α] (storage : Fin 3 → Fin 3 → α) (m1 m2 : TMatrix3 α) : TMatrix3 α :=
  ofColumns storage (m1.c0.operatorAdd m2.c0) (m1.c1.operatorAdd m2.c1)
    (m1.c2.operatorAdd m2.c2)

/-- The operator `operator== (const TMatrix3& m1, const TMatrix3& m2)`:
`m1[0] == m2[0] && m1[1] == m2[1] && m1[2] == m2[2]`. -/
def operatorEq [LinearOrderedField α] (eps : α) (m1 m2 : TMatrix3 α) : Bool :=
  TVector3.operatorEq eps (m1.col 0) (m2.col 0) &&
    TVector3.operatorEq eps (m1.col 1) (m2.col 1) &&
    TVector3.operatorEq eps (m1.col 2) (m2.col 2)

/-- The entries of a matrix as a Mathlib matrix, entry `(r, c)` read through
the accessor; the reference object the determinant and the inverse are
compared with. -/
def toMatrix (M : TMatrix3 α) : Matrix (Fin 3) (Fin 3) α :=
  Matrix.of fun r c => M.get r c

/-- The identity matrix built by hand, `TMatrix3(1,0,0, 0,1,0, 0,0,1)`, in
memory whose array holds `storage`. -/
def identityByHand [Zero α] [One α] (storage : Fin 3 → Fin 3 → α) : TMatrix3 α :=
  ofParams storage 1 0 0 0 1 0 0 0 1

end TMatrix3

/-! ## The function library -/

section Functions

variable {α : Type}

/-- The function `Determinant(const TMatrix3& m1)`. -/
def Determinant [CommRing α] (m1 : TMatrix3 α) : α :=
  m1.get 0 0 * (m1.get 1 1 * m1.get 2 2 - m1.get 1 2 * m1.get 2 1)
    - m1.get 0 1 * (m1.get 1 0 * m1.get 2 2 - m1.get 1 2 * m1.get 2 0)
    + m1.get 0 2 * (m1.get 1 0 * m1.get 2 1 - m1.get 1 1 * m1.get 2 0)

/-- The function `Inverse(TMatrix3& m1)`: `v0`, `v1`, `v2` are read through
`operator[]`, their cross products are the rows of the new matrix `inverse`
(whose array holds `storage`), on which `inverse *= _1_det` is run.  `ss` is
the undeclared name of `operator*= (TMatrix3&, T)`. -/
def Inverse [Field α] (ss : α) (storage : Fin 3 → Fin 3 → α) (m1 : TMatrix3 α) :
    TMatrix3 α :=
  let v0 := m1.col 0
  let v1 := m1.col 1
  let v2 := m1.col 2
  let r0 := CrossP v1 v2
  let r1 := CrossP v2 v0
  let r2 := CrossP v0 v1
  let _1_det := 1 / Determinant m1
  let inverse := TMatrix3.ofParams storage r0.x r0.y r0.z r1.x r1.y r1.z r2.x r2.y r2.z
  TMatrix3.operatorMulAssignScalar ss inverse _1_det

/-- The function `InverseV(TMatrix3& m1)`: as `Inverse`, with the new matrix
(whose array holds `storage`) assigned to `m1` and scaled there.  The cross
products and the determinant are values computed before the assignment.  The
result is the pair of the returned value (a copy of `m1`, in memory whose array
holds `storageR`) and the final content of `m1`. -/
def InverseV [Field α] (ss : α) (storage storageR : Fin 3 → Fin 3 → α) (m1 : TMatrix3 α) :
    TMatrix3 α × TMatrix3 α :=
  let v0 := m1.col 0
  let v1 := m1.col 1
  let v2 := m1.col 2
  let r0 := CrossP v1 v2
  let r1 := CrossP v2 v0
  let r2 := CrossP v0 v1
  let _1_det := 1 / Determinant m1
  let m1a := TMatrix3.ofParams storage r0.x r0.y r0.z r1.x r1.y r1.z r2.x r2.y r2.z
  let m1b := TMatrix3.operatorMulAssignScalar ss m1a _1_det
  (TMatrix3.copy storageR m1b, m1b)

/-- Modelled from the spec: the helper `Swap` (not in the sources) applied to
two references `m1(n1, k1)` and `m1(n2, k2)` into the same matrix: the two
entries exchange their values ("swap element (i,j) with (j,i)"). -/
def Swap (m1 : TMatrix3 α) (n1 k1 n2 k2 : Fin 3) : TMatrix3 α :=
  let a := m1.get n1 k1
  let b := m1.get n2 k2
  (m1.set n1 k1 b).set n2 k2 a

/-- The function `TransposeV(TMatrix3& m1)`: three swaps in place, through the
accessor; the result is the pair of the returned value (a copy of `m1`, in
memory whose array holds `storageR`) and the final content of `m1`. -/
def TransposeV (storageR : Fin 3 → Fin 3 → α) (m1 : TMatrix3 α) : TMatrix3 α × TMatrix3 α :=
  let s1 := Swap m1 0 1 1 0
  let s2 := Swap s1 0 2 2 0
  let s3 := Swap s2 1 2 2 1
  (TMatrix3.copy storageR s3, s3)

/-- The function `Transpose(const TMatrix3& m1)`: a new matrix, whose array
holds `storage`, built from the entries read through the accessor. -/
def Transpose (storage : Fin 3 → Fin 3 → α) (m1 : TMatrix3 α) : TMatrix3 α :=
  TMatrix3.ofParams storage (m1.get 0 0) (m1.get 1 0) (m1.get 2 0)
    (m1.get 0 1) (m1.get 1 1) (m1.get 2 1)
    (m1.get 0 2) (m1.get 1 2) (m1.get 2 2)

/-- The function `IsIdentityMatrix(const TMatrix3& m1)`; the tolerance
`P_FLT_INAC` is not defined in the sources and is the parameter `eps`. -/
def IsIdentityMatrix [LinearOrderedField α] (eps : α) (m1 : TMatrix3 α) : Bool :=
  decide (|m1.get 0 0 - 1| < eps) && decide (|m1.get 0 1 - 0| < eps) &&
    decide (|m1.get 0 2 - 0| < eps) &&
  decide (|m1.get 1 0 - 0| < eps) && decide (|m1.get 1 1 - 1| < eps) &&
    decide (|m1.get 1 2 - 0| < eps) &&
  decide (|m1.get 2 0 - 0| < eps) && decide (|m1.get 2 1 - 0| < eps) &&
    decide (|m1.get 2 2 - 1| < eps)

end Functions

/-! ## Further constructors and operators of `TMatrix3` -/

/-- Modelled from the spec: `operator- (TVector3, TVector3)` of `Vector3.hpp`
(missing), the componentwise difference. -/
def TVector3.operatorSub {α : Type} [Sub α] (v1 v2 : TVector3 α) : TVector3 α :=
  ⟨v1.x - v2.x, v1.y - v2.y, v1.z - v2.z⟩

/-- Modelled from the spec: `operator* (TVector3, T)` of `Vector3.hpp`
(missing), the vector scaled by a scalar, every component multiplied. -/
def TVector3.operatorMulScalar {α : Type} [Mul α] (v : TVector3 α) (s : α) : TVector3 α :=
  ⟨v.x * s, v.y * s, v.z * s⟩

/-- The constructor `TMatrix3(T fields[3][3])`, "2D Array with row major
order": `fields r c` is `fields[r][c]`; `data` keeps the content `storage`. -/
def TMatrix3.ofFields {α : Type} (storage : Fin 3 → Fin 3 → α) (fields : Fin 3 → Fin 3 → α) :
    TMatrix3 α :=
  { c0 := ⟨fields 0 0, fields 1 0, fields 2 0⟩
    c1 := ⟨fields 0 1, fields 1 1, fields 2 1⟩
    c2 := ⟨fields 0 2, fields 1 2, fields 2 2⟩
    data := storage }

/-- The operator `operator- (const TMatrix3& m1, const TMatrix3& m2)`. -/
def TMatrix3.operatorSub {α : Type} [Sub α] (storage : Fin 3 → Fin 3 → α)
    (m1 m2 : TMatrix3 α) : TMatrix3 α :=
  TMatrix3.ofColumns storage (m1.c0.operatorSub m2.c0) (m1.c1.operatorSub m2.c1)
    (m1.c2.operatorSub m2.c2)

/-- The operator `operator* (const TMatrix3& m, float s)`.  The scalar is
declared `float` and not `T`; both are the one exact scalar type here. -/
def TMatrix3.operatorMulScalar {α : Type} [Mul α] (storage : Fin 3 → Fin 3 → α)
    (m : TMatrix3 α) (s : α) : TMatrix3 α :=
  TMatrix3.ofColumns storage (m.c0.operatorMulScalar s) (m.c1.operatorMulScalar s)
    (m.c2.operatorMulScalar s)

/-! ## The pure forms with their argument made explicit -/

/-- The function `Inverse(TMatrix3& m1)` with its reference argument made
explicit: the pair of the returned value and the content of `m1` at return.
`m1` is read into the const references `v0`, `v1`, `v2` and by `Determinant`
(const reference); the objects written are the locals `r0`, `r1`, `r2`,
`_1_det` and `inverse`. -/
def InverseFrame {α : Type} [Field α] (ss : α) (storage : Fin 3 → Fin 3 → α)
    (m1 : TMatrix3 α) : TMatrix3 α × TMatrix3 α :=
  let v0 := m1.col 0
  let v1 := m1.col 1
  let v2 := m1.col 2
  let r0 := CrossP v1 v2
  let r1 := CrossP v2 v0
  let r2 := CrossP v0 v1
  let _1_det := 1 / Determinant m1
  let inverse := TMatrix3.ofParams storage r0.x r0.y r0.z r1.x r1.y r1.z r2.x r2.y r2.z
  let inverse := TMatrix3.operatorMulAssignScalar ss inverse _1_det
  (inverse, m1)

/-- The function `Transpose(const TMatrix3& m1)` with its argument made
explicit: the pair of the returned value and the content of `m1` at return;
`m1` is a const reference, read nine times through the const accessor. -/
def TransposeFrame {α : Type} (storage : Fin 3 → Fin 3 → α) (m1 : TMatrix3 α) :
    TMatrix3 α × TMatrix3 α :=
  let result := TMatrix3.ofParams storage (m1.get 0 0) (m1.get 1 0) (m1.get 2 0)
    (m1.get 0 1) (m1.get 1 1) (m1.get 2 1)
    (m1.get 0 2) (m1.get 1 2) (m1.get 2 2)
  (result, m1)

/-! ## 2D vectors (`Vector2.h` declares the functions; their bodies are not
part of the sources) -/

/-- The struct `TVector2<T>` of `Vector2.h`: the components `x` and `y`;
`TVector2(x, y)` is the constructor from components. -/
structure TVector2 (α : Type) where
  x : α
  y : α
deriving DecidableEq, Repr

namespace TVector2

variable {α : Type}

/-- Modelled from the spec: `DotP(v1, v2)` for 2D vectors, declared in
`Vector2.h` without a body: the dot product. -/
def DotP [Add α] [Mul α] (v1 v2 : TVector2 α) : α :=
  v1.x * v2.x + v1.y * v2.y

/-- Modelled from the spec: `Reflect(v1, normal)`, declared in `Vector2.h`
without a body: "mirror v1 about a surface normal, formula
`v1 − 2·(v1·normal)·normal`". -/
def Reflect [Field α] (v1 normal : TVector2 α) : TVector2 α :=
  ⟨v1.x - 2 * DotP v1 normal * normal.x, v1.y - 2 * DotP v1 normal * normal.y⟩

/-- Modelled from the spec: `LerpUnclamped(startVec, destVec, t)`, declared in
`Vector2.h` without a body: "linear interpolation `start + t·(dest − start)`",
`t` not clamped. -/
def LerpUnclamped [Field α] (startVec destVec : TVector2 α) (t : α) : TVector2 α :=
  ⟨startVec.x + t * (destVec.x - startVec.x), startVec.y + t * (destVec.y - startVec.y)⟩

/-- Modelled from the spec: `Lerp(startVec, destVec, t)`, declared in
`Vector2.h` without a body ("Interpolation is clamped between 0 - 1"): "`Lerp`
clamps t to [0,1] first", then interpolates as `LerpUnclamped`. -/
def Lerp [LinearOrderedField α] (startVec destVec : TVector2 α) (t : α) : TVector2 α :=
  let tc := if t < 0 then 0 else if 1 < t then 1 else t
  LerpUnclamped startVec destVec tc

end TVector2

/-- Modelled from the spec: `operator* (const TVector2&, const TVector2&)`,
declared in `Vector2.h` with result type `T` and without a body ("Dot product
between two Vectors"): "the `*` operator between two vectors of identical shape
is defined as the dot product, returning a scalar". -/
def TVector2.operatorMul {α : Type} [Add α] [Mul α] (v1 v2 : TVector2 α) : α :=
  v1.x * v2.x + v1.y * v2.y

/-! ## Triple product, compound assignments and `!=` -/

/-- Modelled from the spec: `DotP` for 3D vectors, of `Vector3.hpp` (missing):
the dot product. -/
def TVector3.DotP {α : Type} [Add α] [Mul α] (v1 v2 : TVector3 α) : α :=
  v1.x * v2.x + v1.y * v2.y + v1.z * v2.z

/-- Modelled from the spec: `operator+ (TVector3, T)` and `operator+=
(TVector3&, T)` of `Vector3.hpp` (missing): the scalar added to every
component. -/
def TVector3.operatorAddScalar {α : Type} [Add α] (v : TVector3 α) (s : α) : TVector3 α :=
  ⟨v.x + s, v.y + s, v.z + s⟩

/-- Modelled from the spec: `operator- (TVector3, T)` and `operator-=
(TVector3&, T)` of `Vector3.hpp` (missing): the scalar subtracted from every
component. -/
def TVector3.operatorSubScalar {α : Type} [Sub α] (v : TVector3 α) (s : α) : TVector3 α :=
  ⟨v.x - s, v.y - s, v.z - s⟩

namespace TMatrix3

variable {α : Type}

/-- The operator `operator+= (TMatrix3& m1, T s)`: the new content of `m1`;
the value returned is a copy of it. -/
def operatorAddAssignScalar [Add α] (m1 : TMatrix3 α) (s : α) : TMatrix3 α :=
  { m1 with
    c0 := m1.c0.operatorAddScalar s
    c1 := m1.c1.operatorAddScalar s
    c2 := m1.c2.operatorAddScalar s }

/-- The operator `operator+= (TMatrix3& m1, const TMatrix3& m2)`: the new
content of `m1`; the value returned is a copy of it (the vector `+=` is the
componentwise sum). -/
def operatorAddAssign [Add α] (m1 m2 : TMatrix3 α) : TMatrix3 α :=
  { m1 with
    c0 := m1.c0.operatorAdd m2.c0
    c1 := m1.c1.operatorAdd m2.c1
    c2 := m1.c2.operatorAdd m2.c2 }

/-- The operator `operator-= (TMatrix3& m1, T s)`: the new content of `m1`;
the value returned is a copy of it. -/
def operatorSubAssignScalar [Sub α] (m1 : TMatrix3 α) (s : α) : TMatrix3 α :=
  { m1 with
    c0 := m1.c0.operatorSubScalar s
    c1 := m1.c1.operatorSubScalar s
    c2 := m1.c2.operatorSubScalar s }

/-- The operator `operator-= (TMatrix3& m1, const TMatrix3& m2)`: the new
content of `m1`; the value returned is a copy of it (the vector `-=` is the
componentwise difference). -/
def operatorSubAssign [Sub α] (m1 m2 : TMatrix3 α) : TMatrix3 α :=
  { m1 with
    c0 := m1.c0.operatorSub m2.c0
    c1 := m1.c1.operatorSub m2.c1
    c2 := m1.c2.operatorSub m2.c2 }

/-- The operator `operator+ (const TMatrix3& m, T s)`. -/
def operatorAddScalar [Add α] (storage : Fin 3 → Fin 3 → α) (m : TMatrix3 α) (s : α) :
    TMatrix3 α :=
  ofColumns storage (m.c0.operatorAddScalar s) (m.c1.operatorAddScalar s)
    (m.c2.operatorAddScalar s)

/-- The operator `operator- (const TMatrix3& m, T s)`.  The body builds the
matrix from the columns of `m1`, not of its parameter `m`; `m1` is declared
nowhere in the scope of the function and is taken as a parameter. -/
def operatorSubScalar [Sub α] (storage : Fin 3 → Fin 3 → α) (m1 : TMatrix3 α)
    (_m : TMatrix3 α) (s : α) : TMatrix3 α :=
  ofColumns storage (m1.c0.operatorSubScalar s) (m1.c1.operatorSubScalar s)
    (m1.c2.operatorSubScalar s)

/-- The operator `operator!= (const TMatrix3& m1, const TMatrix3& m2)`:
`m1[0] != m2[0] || m1[1] != m2[1] || m1[2] != m2[2]`.  The vector `!=` of
`Vector3.hpp` (missing) is the parameter `vne`. -/
def operatorNe (vne : TVector3 α → TVector3 α → Bool) (m1 m2 : TMatrix3 α) : Bool :=
  vne (m1.col 0) (m2.col 0) || vne (m1.col 1) (m2.col 1) || vne (m1.col 2) (m2.col 2)

end TMatrix3

/-! ## The array and the columns -/

/-- An entry read back at the place it was written holds the written value. -/
theorem TMatrix3.get_set_same {α : Type} (M : TMatrix3 α) (n m : Fin 3) (a : α) :
    (M.set n m a).get n m = a := by
  simp [TMatrix3.set, TMatrix3.get, TMatrix3.m]

/-- An entry read after a write holds the written value at the place written
and what it held before at every other place. -/
theorem TMatrix3.get_set {α : Type} (M : TMatrix3 α) (n m : Fin 3) (a : α) (r c : Fin 3) :
    (M.set n m a).get r c = if c = m ∧ r = n then a else M.get r c :=
  rfl

/-- After the nine writes of `filled`, the accessor reads at `(r, c)` the
component `r` of the column member number `c`. -/
theorem TMatrix3.filled_get {α : Type} (M : TMatrix3 α) (r c : Fin 3) :
    M.filled.get r c = M.entry r c :=
  rfl

/-- The array of `filled` is what nine writes through the accessor leave. -/
theorem TMatrix3.filled_eq_writes {α : Type} (M : TMatrix3 α) :
    M.filled =
      ((((((((M.set 0 0 M.c0.x).set 1 0 M.c0.y).set 2 0 M.c0.z).set 0 1 M.c1.x).set 1 1
        M.c1.y).set 2 1 M.c1.z).set 0 2 M.c2.x).set 1 2 M.c2.y).set 2 2 M.c2.z := by
  simp only [TMatrix3.filled, TMatrix3.set, TMatrix3.mk.injEq, true_and]
  funext c r
  fin_cases c <;> fin_cases r <;> simp [TMatrix3.column, TVector3.comp]

/-- After the nine writes of `filled`, `operator[]` reads the column member. -/
theorem TMatrix3.filled_col {α : Type} (M : TMatrix3 α) (c : Fin 3) :
    M.filled.col c = M.column c :=
  rfl

/-- The nine writes of `filled` leave the column members as they were. -/
theorem TMatrix3.filled_column {α : Type} (M : TMatrix3 α) (c : Fin 3) :
    M.filled.column c = M.column c := by
  fin_cases c <;> rfl

/-- The accessor of a matrix built by the parameter constructor reads the
content that the memory of the object had, whatever the parameters. -/
theorem TMatrix3.ofParams_get {α : Type} (storage : Fin 3 → Fin 3 → α)
    (n00 n01 n02 n10 n11 n12 n20 n21 n22 : α) (r c : Fin 3) :
    (TMatrix3.ofParams storage n00 n01 n02 n10 n11 n12 n20 n21 n22).get r c = storage c r :=
  rfl

/-- The column members of a matrix built by the parameter constructor hold the
parameters: component `r` of column `c` is `n_rc`. -/
theorem TMatrix3.ofParams_entry {α : Type} (storage : Fin 3 → Fin 3 → α)
    (n00 n01 n02 n10 n11 n12 n20 n21 n22 : α) (r c : Fin 3) :
    (TMatrix3.ofParams storage n00 n01 n02 n10 n11 n12 n20 n21 n22).entry r c =
      ![![n00, n01, n02], ![n10, n11, n12], ![n20, n21, n22]] r c := by
  fin_cases r <;> fin_cases c <;> rfl

/-! ## Determinant -/

/-- C1: for every 3x3 matrix, `Determinant` is the cofactor expansion along the
first row of the entries read through the accessor, and it is the determinant
of the 3x3 matrix with those entries. -/
theorem Determinant_eq_det {α : Type} [CommRing α] (M : TMatrix3 α) :
    Determinant M =
        M.get 0 0 * (M.get 1 1 * M.get 2 2 - M.get 1 2 * M.get 2 1)
          - M.get 0 1 * (M.get 1 0 * M.get 2 2 - M.get 1 2 * M.get 2 0)
          + M.get 0 2 * (M.get 1 0 * M.get 2 1 - M.get 1 1 * M.get 2 0)
      ∧ Determinant M = Matrix.det M.toMatrix := by
  refine ⟨rfl, ?_⟩
  rw [Matrix.det_fin_three]
  simp only [Determinant, TMatrix3.toMatrix, Matrix.of_apply]
  ring

/-- The determinant of a matrix whose array was filled from its columns, in
the components of the columns. -/
theorem Determinant_filled {α : Type} [CommRing α] (M : TMatrix3 α) :
    Determinant M.filled =
      M.c0.x * (M.c1.y * M.c2.z - M.c2.y * M.c1.z)
        - M.c1.x * (M.c0.y * M.c2.z - M.c2.y * M.c0.z)
        + M.c2.x * (M.c0.y * M.c1.z - M.c1.y * M.c0.z) := by
  simp only [Determinant, TMatrix3.filled_get]
  rfl

/-! ## Inverse -/

/-- The matrix built by `Inverse`: its column members hold, row by row, the
cross products of the rows of the array of `m1` read through `operator[]`,
scaled by `ss`; its array is the content `storage`. -/
theorem Inverse_eq {α : Type} [Field α] (ss : α) (storage : Fin 3 → Fin 3 → α)
    (M : TMatrix3 α) :
    Inverse ss storage M =
      TMatrix3.ofParams storage
        ((CrossP (M.col 1) (M.col 2)).x * ss) ((CrossP (M.col 1) (M.col 2)).y * ss)
        ((CrossP (M.col 1) (M.col 2)).z * ss)
        ((CrossP (M.col 2) (M.col 0)).x * ss) ((CrossP (M.col 2) (M.col 0)).y * ss)
        ((CrossP (M.col 2) (M.col 0)).z * ss)
        ((CrossP (M.col 0) (M.col 1)).x * ss) ((CrossP (M.col 0) (M.col 1)).y * ss)
        ((CrossP (M.col 0) (M.col 1)).z * ss) :=
  rfl

/-- The entries that the matrix built by `Inverse` has once its array is filled
from its columns. -/
theorem Inverse_filled_get {α : Type} [Field α] (ss : α) (storage : Fin 3 → Fin 3 → α)
    (M : TMatrix3 α) (r c : Fin 3) :
    (Inverse ss storage M).filled.get r c =
      ![![(CrossP (M.col 1) (M.col 2)).x * ss, (CrossP (M.col 1) (M.col 2)).y * ss,
            (CrossP (M.col 1) (M.col 2)).z * ss],
          ![(CrossP (M.col 2) (M.col 0)).x * ss, (CrossP (M.col 2) (M.col 0)).y * ss,
            (CrossP (M.col 2) (M.col 0)).z * ss],
          ![(CrossP (M.col 0) (M.col 1)).x * ss, (CrossP (M.col 0) (M.col 1)).y * ss,
            (CrossP (M.col 0) (M.col 1)).z * ss]] r c := by
  rw [TMatrix3.filled_get, Inverse_eq, TMatrix3.ofParams_entry]

/-- With the scale factor of `operator*=` equal to `1 / Determinant M`, and
with the array of the result filled from its columns, the matrix built by
`Inverse` is a two-sided inverse of an invertible `M` for the row-by-column
product. -/
theorem Inverse_mul_of_scale {α : Type} [Field α] (storage : Fin 3 → Fin 3 → α)
    (M : TMatrix3 α) (hdet : Determinant M ≠ 0) :
    (Inverse (1 / Determinant M) storage M).filled.toMatrix * M.toMatrix = 1 ∧
      M.toMatrix * (Inverse (1 / Determinant M) storage M).filled.toMatrix = 1 := by
  have key : (Inverse (1 / Determinant M) storage M).filled.toMatrix * M.toMatrix = 1 := by
    have hk : 1 / Determinant M * Determinant M = 1 := one_div_mul_cancel hdet
    generalize 1 / Determinant M = k at hk ⊢
    simp only [Determinant, TMatrix3.get, TMatrix3.m] at hk
    ext i j
    simp only [Matrix.mul_apply, Fin.sum_univ_three, TMatrix3.toMatrix, Matrix.of_apply,
      Inverse_filled_get]
    simp only [TMatrix3.get, TMatrix3.m, TMatrix3.col, CrossP]
    fin_cases i <;> fin_cases j <;> simp <;> first | linear_combination hk | ring1
  exact ⟨key, Matrix.mul_eq_one_comm.mp key⟩

/-- C2 (failing input): on `TMatrix3(2,0,0, 0,2,0, 0,0,2)` with its array
filled with the same entries, of determinant 8, `Inverse` returns the cofactor
matrix `diag(4,4,4)` scaled by `ss` and not by `1/8`; no value of `ss` makes
`Inverse` invert both this matrix and the identity built by hand, even with
the array of the result filled from its columns. -/
theorem Inverse_scaled_by_ss_not_by_det :
    ∀ (ss : ℚ) (storage : Fin 3 → Fin 3 → ℚ),
      Determinant (TMatrix3.ofParams storage 2 0 0 0 2 0 0 0 2).filled = 8 ∧
      Inverse ss storage (TMatrix3.ofParams storage 2 0 0 0 2 0 0 0 2).filled =
        TMatrix3.ofParams storage (4 * ss) 0 0 0 (4 * ss) 0 0 0 (4 * ss) ∧
      ¬ ((Inverse ss storage (TMatrix3.ofParams storage 2 0 0 0 2 0 0 0 2).filled).filled.toMatrix *
            (TMatrix3.ofParams storage 2 0 0 0 2 0 0 0 2).filled.toMatrix = 1 ∧
          (Inverse ss storage (TMatrix3.identityByHand storage).filled).filled.toMatrix *
            (TMatrix3.identityByHand storage).filled.toMatrix = 1) := by
  intro ss storage
  have hD : Inverse ss storage (TMatrix3.ofParams storage 2 0 0 0 2 0 0 0 2).filled =
      TMatrix3.ofParams storage (4 * ss) 0 0 0 (4 * ss) 0 0 0 (4 * ss) := by
    rw [Inverse_eq]
    simp only [TMatrix3.filled_col, TMatrix3.column, TMatrix3.ofParams, CrossP]
    norm_num
  have hI : Inverse ss storage (TMatrix3.identityByHand storage).filled =
      TMatrix3.ofParams storage ss 0 0 0 ss 0 0 0 ss := by
    rw [Inverse_eq]
    simp only [TMatrix3.filled_col, TMatrix3.column, TMatrix3.ofParams,
      TMatrix3.identityByHand, CrossP]
    norm_num
  refine ⟨?_, hD, ?_⟩
  · rw [Determinant_filled]
    norm_num [TMatrix3.ofParams]
  · rintro ⟨h2, h1⟩
    have e2 := congrFun (congrFun h2 0) 0
    have e1 := congrFun (congrFun h1 0) 0
    rw [hD] at e2
    rw [hI] at e1
    simp only [Matrix.mul_apply, Fin.sum_univ_three, TMatrix3.toMatrix, Matrix.of_apply,
      TMatrix3.filled_get, TMatrix3.identityByHand, TMatrix3.ofParams_entry] at e1 e2
    simp at e1 e2
    rw [e1] at e2
    norm_num at e2

/-! ## Matrix by matrix `*` -/

/-- Every component of the columns of `m1 * m2` is the sum of the two
components at that place. -/
theorem operatorMul_entry {α : Type} [Add α] (storage : Fin 3 → Fin 3 → α)
    (m1 m2 : TMatrix3 α) (r c : Fin 3) :
    (TMatrix3.operatorMul storage m1 m2).entry r c = m1.entry r c + m2.entry r c := by
  fin_cases r <;> fin_cases c <;> rfl

/-- Every component of the columns of `m1` after `m1 *= m2` is the product of
the two components at that place. -/
theorem operatorMulAssign_entry {α : Type} [Mul α] (m1 m2 : TMatrix3 α) (r c : Fin 3) :
    (TMatrix3.operatorMulAssign m1 m2).entry r c = m1.entry r c * m2.entry r c := by
  fin_cases r <;> fin_cases c <;> rfl

/-- C3 (failing input): for `m1 = TMatrix3(1,2,3, 4,5,6, 7,8,9)` and `m2` the
identity built by hand, `m1 * m2` is `TMatrix3(2,2,3, 4,6,6, 7,8,10)`, the
componentwise sum, while the componentwise product is
`TMatrix3(1,0,0, 0,5,0, 0,0,9)`, which is what `m1 *= m2` stores. -/
theorem operatorMul_is_sum_at_input :
    ∀ storage : Fin 3 → Fin 3 → ℚ,
      TMatrix3.operatorMul storage (TMatrix3.ofParams storage 1 2 3 4 5 6 7 8 9)
          (TMatrix3.identityByHand storage) =
        TMatrix3.ofParams storage 2 2 3 4 6 6 7 8 10 ∧
      TMatrix3.operatorMulAssign (TMatrix3.ofParams storage 1 2 3 4 5 6 7 8 9)
          (TMatrix3.identityByHand storage) = TMatrix3.ofParams storage 1 0 0 0 5 0 0 0 9 ∧
      (TMatrix3.operatorMul storage (TMatrix3.ofParams storage 1 2 3 4 5 6 7 8 9)
          (TMatrix3.identityByHand storage)).entry 0 0 ≠
        (TMatrix3.ofParams storage 1 2 3 4 5 6 7 8 9).entry 0 0 *
          (TMatrix3.identityByHand storage).entry 0 0 := by
  intro storage
  refine ⟨?_, ?_, ?_⟩
  · norm_num [TMatrix3.operatorMul, TMatrix3.ofColumns, TVector3.operatorAdd,
      TMatrix3.ofParams, TMatrix3.identityByHand]
  · norm_num [TMatrix3.operatorMulAssign, TVector3.operatorMulAssign, TMatrix3.ofParams,
      TMatrix3.identityByHand]
  · norm_num [TMatrix3.operatorMul, TMatrix3.ofColumns, TVector3.operatorAdd,
      TMatrix3.ofParams, TMatrix3.identityByHand, TMatrix3.entry, TMatrix3.column,
      TVector3.comp]

/-! ## Transpose -/

/-- The accessor of the matrix built by `Transpose` reads the content that the
memory of the new object had, whatever the argument. -/
theorem Transpose_get {α : Type} (storage : Fin 3 → Fin 3 → α) (M : TMatrix3 α)
    (i j : Fin 3) : (Transpose storage M).get i j = storage j i :=
  rfl

/-- The column members of the matrix built by `Transpose` hold the entries of
the argument read through the accessor, rows and columns exchanged. -/
theorem Transpose_entry {α : Type} (storage : Fin 3 → Fin 3 → α) (M : TMatrix3 α)
    (i j : Fin 3) : (Transpose storage M).entry i j = M.get j i := by
  fin_cases i <;> fin_cases j <;> rfl

/-- After `TransposeV`, the accessor of the argument reads at `(i, j)` what it
read at `(j, i)` before the call. -/
theorem TransposeV_get {α : Type} (storageR : Fin 3 → Fin 3 → α) (M : TMatrix3 α)
    (i j : Fin 3) : (TransposeV storageR M).2.get i j = M.get j i := by
  simp only [TransposeV, Swap, TMatrix3.get_set]
  fin_cases i <;> fin_cases j <;> simp

/-- The three swaps of `TransposeV` leave the column members of the argument
as they were, and the value returned holds those same columns. -/
theorem TransposeV_columns {α : Type} (storageR : Fin 3 → Fin 3 → α) (M : TMatrix3 α) :
    (TransposeV storageR M).2.c0 = M.c0 ∧ (TransposeV storageR M).2.c1 = M.c1 ∧
      (TransposeV storageR M).2.c2 = M.c2 ∧
      (TransposeV storageR M).1 = TMatrix3.copy storageR M := by
  simp only [TransposeV, Swap, TMatrix3.set, TMatrix3.copy, and_self]

/-- C4 (failing input): `Transpose` applied twice returns a matrix whose columns
are the content that the memory of the intermediate result had, whatever the
argument; for `TMatrix3(1,2,3, 4,5,6, 7,8,9)`, array filled, in zeroed memory
it returns the zero matrix and not the argument. -/
theorem Transpose_Transpose_reads_storage :
    (∀ (storage storage2 : Fin 3 → Fin 3 → ℚ) (M : TMatrix3 ℚ),
        Transpose storage2 (Transpose storage M) =
          TMatrix3.ofParams storage2 (storage 0 0) (storage 0 1) (storage 0 2)
            (storage 1 0) (storage 1 1) (storage 1 2)
            (storage 2 0) (storage 2 1) (storage 2 2)) ∧
      Transpose (fun _ _ => 0) (Transpose (fun _ _ => 0)
          (TMatrix3.ofParams (fun _ _ => (0 : ℚ)) 1 2 3 4 5 6 7 8 9).filled) =
        TMatrix3.ofParams (fun _ _ => 0) 0 0 0 0 0 0 0 0 0 ∧
      Transpose (fun _ _ => 0) (Transpose (fun _ _ => 0)
          (TMatrix3.ofParams (fun _ _ => (0 : ℚ)) 1 2 3 4 5 6 7 8 9).filled) ≠
        (TMatrix3.ofParams (fun _ _ => (0 : ℚ)) 1 2 3 4 5 6 7 8 9).filled := by
  have h0 : Transpose (fun _ _ => 0) (Transpose (fun _ _ => 0)
      (TMatrix3.ofParams (fun _ _ => (0 : ℚ)) 1 2 3 4 5 6 7 8 9).filled) =
      TMatrix3.ofParams (fun _ _ => 0) 0 0 0 0 0 0 0 0 0 := rfl
  refine ⟨fun _ _ _ => rfl, h0, ?_⟩
  rw [h0]
  intro h
  have e := congrArg (fun N : TMatrix3 ℚ => N.c0.x) h
  norm_num [TMatrix3.ofParams, TMatrix3.filled] at e

/-- C5 (failing input): entry `(i, j)` of `Transpose M`, read through the
accessor, is the content that the memory of the new object had; for
`M = TMatrix3(1,2,3, 4,5,6, 7,8,9)`, array filled, and a result in zeroed
memory, `Transpose(M)(0,1)` is 0 while `M(1,0)` is 4. -/
theorem Transpose_get_reads_storage :
    (∀ (storage : Fin 3 → Fin 3 → ℚ) (M : TMatrix3 ℚ) (i j : Fin 3),
        (Transpose storage M).get i j = storage j i) ∧
      (Transpose (fun _ _ => 0)
          (TMatrix3.ofParams (fun _ _ => (0 : ℚ)) 1 2 3 4 5 6 7 8 9).filled).get 0 1 = 0 ∧
      (TMatrix3.ofParams (fun _ _ => (0 : ℚ)) 1 2 3 4 5 6 7 8 9).filled.get 1 0 = 4 :=
  ⟨fun _ _ _ _ => rfl, rfl, rfl⟩

/-- C6 (failing input): for `M = TMatrix3(1,2,3, 4,5,6, 7,8,9)`, array filled,
`TransposeV` returns a copy with the columns of `M` as they were, while
`Transpose` returns `TMatrix3(1,4,7, 2,5,8, 3,6,9)`; neither the value returned
nor the content of `M` after the call is the matrix `Transpose` returns. -/
theorem TransposeV_ne_Transpose_at_input :
    (TransposeV (fun _ _ => 0)
        (TMatrix3.ofParams (fun _ _ => (0 : ℚ)) 1 2 3 4 5 6 7 8 9).filled).1 =
        TMatrix3.ofParams (fun _ _ => 0) 1 2 3 4 5 6 7 8 9 ∧
      Transpose (fun _ _ => 0)
          (TMatrix3.ofParams (fun _ _ => (0 : ℚ)) 1 2 3 4 5 6 7 8 9).filled =
        TMatrix3.ofParams (fun _ _ => 0) 1 4 7 2 5 8 3 6 9 ∧
      (TransposeV (fun _ _ => 0)
        (TMatrix3.ofParams (fun _ _ => (0 : ℚ)) 1 2 3 4 5 6 7 8 9).filled).1 ≠
        Transpose (fun _ _ => 0)
          (TMatrix3.ofParams (fun _ _ => (0 : ℚ)) 1 2 3 4 5 6 7 8 9).filled ∧
      (TransposeV (fun _ _ => 0)
        (TMatrix3.ofParams (fun _ _ => (0 : ℚ)) 1 2 3 4 5 6 7 8 9).filled).2 ≠
        Transpose (fun _ _ => 0)
          (TMatrix3.ofParams (fun _ _ => (0 : ℚ)) 1 2 3 4 5 6 7 8 9).filled := by
  have hV : (TransposeV (fun _ _ => 0)
      (TMatrix3.ofParams (fun _ _ => (0 : ℚ)) 1 2 3 4 5 6 7 8 9).filled).1 =
      TMatrix3.ofParams (fun _ _ => 0) 1 2 3 4 5 6 7 8 9 := rfl
  have hT : Transpose (fun _ _ => 0)
      (TMatrix3.ofParams (fun _ _ => (0 : ℚ)) 1 2 3 4 5 6 7 8 9).filled =
      TMatrix3.ofParams (fun _ _ => 0) 1 4 7 2 5 8 3 6 9 := rfl
  refine ⟨hV, hT, ?_, ?_⟩
  · rw [hV, hT]
    intro h
    have e := congrArg (fun N : TMatrix3 ℚ => N.c0.y) h
    norm_num [TMatrix3.ofParams] at e
  · rw [hT]
    intro h
    have e := congrArg (fun N : TMatrix3 ℚ => N.c0.y) h
    have e2 : (TransposeV (fun _ _ => 0)
        (TMatrix3.ofParams (fun _ _ => (0 : ℚ)) 1 2 3 4 5 6 7 8 9).filled).2.c0.y = 4 := rfl
    simp only [e2] at e
    norm_num [TMatrix3.ofParams] at e

/-- C7: for every 3x3 matrix (and whatever the undeclared `ss` of the scalar
`*=` stands for), `InverseV` returns the matrix `Inverse` returns for the
original content, and leaves that same matrix in its argument; the arrays,
which neither function writes, hold what the memory of each object had. -/
theorem InverseV_eq_Inverse {α : Type} [Field α] (ss : α)
    (storage storageR : Fin 3 → Fin 3 → α) (M : TMatrix3 α) :
    (InverseV ss storage storageR M).1 = Inverse ss storageR M ∧
      (InverseV ss storage storageR M).2 = Inverse ss storage M :=
  ⟨rfl, rfl⟩

/-! ## Identity test and equality -/

/-- The entries the accessor reads in the identity built by hand once its
array is filled from its columns: 1 on the diagonal, 0 elsewhere. -/
theorem identityByHand_filled_get {α : Type} [Zero α] [One α] (storage : Fin 3 → Fin 3 → α)
    (i j : Fin 3) :
    (TMatrix3.identityByHand storage).filled.get i j = if i = j then 1 else 0 := by
  fin_cases i <;> fin_cases j <;> rfl

/-- When `IsIdentityMatrix` is true, every entry is within `eps` of the entry
of the identity at its place. -/
theorem IsIdentityMatrix_get {α : Type} [LinearOrderedField α] (eps : α) (M : TMatrix3 α)
    (h : IsIdentityMatrix eps M = true) (i j : Fin 3) :
    |M.get i j - (if i = j then 1 else 0)| < eps := by
  simp only [IsIdentityMatrix, Bool.and_eq_true, decide_eq_true_eq, sub_zero] at h
  obtain ⟨⟨⟨⟨⟨⟨⟨⟨h00, h01⟩, h02⟩, h10⟩, h11⟩, h12⟩, h20⟩, h21⟩, h22⟩ := h
  fin_cases i <;> fin_cases j <;> simpa

/-- C8: for every 3x3 matrix, `IsIdentityMatrix` is true exactly when every
diagonal entry is within `eps` of 1 and every off-diagonal entry is within
`eps` of 0, `eps` being the tolerance `P_FLT_INAC`. -/
theorem IsIdentityMatrix_iff {α : Type} [LinearOrderedField α] (eps : α) (M : TMatrix3 α) :
    IsIdentityMatrix eps M = true ↔
      (∀ i : Fin 3, |M.get i i - 1| < eps) ∧
        (∀ i j : Fin 3, i ≠ j → |M.get i j| < eps) := by
  simp only [IsIdentityMatrix, Bool.and_eq_true, decide_eq_true_eq, sub_zero,
    Fin.forall_fin_succ, Fin.forall_fin_zero_pi]
  simp
  tauto

/-- With a positive tolerance, `IsIdentityMatrix` is true for the identity built
by hand once its array is filled from its columns, and false for that matrix
with `d` added, through the accessor, to the entry `(i, j)`, for every `d` of
absolute value above the tolerance. -/
theorem IsIdentityMatrix_filled_identity_perturbed {α : Type} [LinearOrderedField α]
    (eps : α) (storage : Fin 3 → Fin 3 → α) (heps : 0 < eps) (i j : Fin 3) (d : α)
    (hd : eps < |d|) :
    IsIdentityMatrix eps (TMatrix3.identityByHand storage).filled = true ∧
      IsIdentityMatrix eps
        ((TMatrix3.identityByHand storage).filled.set i j
          ((TMatrix3.identityByHand storage).filled.get i j + d)) = false := by
  constructor
  · simp [IsIdentityMatrix, identityByHand_filled_get, heps]
  · rw [← Bool.not_eq_true]
    intro htrue
    have h := IsIdentityMatrix_get eps _ htrue i j
    rw [TMatrix3.get_set_same, identityByHand_filled_get, add_sub_cancel_left] at h
    exact absurd h (not_lt.mpr hd.le)

/-- C9 (failing input): for the identity built by hand,
`TMatrix3(1,0,0, 0,1,0, 0,0,1)`, in zeroed memory, `IsIdentityMatrix` with
tolerance 1/1000 is false: it reads the array, which the constructor does not
write, so its value is the same whatever parameters the constructor was
given. -/
theorem IsIdentityMatrix_identityByHand_reads_storage :
    IsIdentityMatrix (1 / 1000 : ℚ) (TMatrix3.identityByHand (fun _ _ => 0)) = false ∧
      ∀ (eps : ℚ) (storage : Fin 3 → Fin 3 → ℚ) (n00 n01 n02 n10 n11 n12 n20 n21 n22 : ℚ),
        IsIdentityMatrix eps (TMatrix3.identityByHand storage) =
          IsIdentityMatrix eps
            (TMatrix3.ofParams storage n00 n01 n02 n10 n11 n12 n20 n21 n22) := by
  refine ⟨?_, fun _ _ _ _ _ _ _ _ _ _ _ => rfl⟩
  rw [← Bool.not_eq_true]
  intro h
  have h00 := IsIdentityMatrix_get (1 / 1000 : ℚ) _ h 0 0
  have e : (TMatrix3.identityByHand (fun _ _ => (0 : ℚ))).get 0 0 = 0 := rfl
  rw [e] at h00
  norm_num [abs_of_pos] at h00

/-- C10: for all 3x3 matrices, `m1 == m2` is true exactly when each column of
`m1` equals the column of `m2` under the vector equality, that is, exactly when
all nine entries differ by less than the tolerance in absolute value. -/
theorem operatorEq_iff {α : Type} [LinearOrderedField α] (eps : α) (m1 m2 : TMatrix3 α) :
    (TMatrix3.operatorEq eps m1 m2 = true ↔
        ∀ i : Fin 3, TVector3.operatorEq eps (m1.col i) (m2.col i) = true) ∧
      (TMatrix3.operatorEq eps m1 m2 = true ↔
        ∀ r c : Fin 3, |m1.get r c - m2.get r c| < eps) := by
  constructor
  · simp only [TMatrix3.operatorEq, Bool.and_eq_true, Fin.forall_fin_succ,
      Fin.forall_fin_zero_pi]
    simp
    tauto
  · simp only [TMatrix3.operatorEq, TVector3.operatorEq, Bool.and_eq_true, decide_eq_true_eq,
      Fin.forall_fin_succ, Fin.forall_fin_zero_pi]
    simp [TMatrix3.get, TMatrix3.col, TMatrix3.m, TVector3.comp]
    tauto

/-! ## Determinant of a diagonal matrix -/

/-- The determinant of the diagonal matrix `TMatrix3(a,0,0, 0,b,0, 0,0,c)` once
its array is filled from its columns is `a*b*c`. -/
theorem Determinant_filled_diagonal {α : Type} [CommRing α] (storage : Fin 3 → Fin 3 → α)
    (a b c : α) :
    Determinant (TMatrix3.ofParams storage a 0 0 0 b 0 0 0 c).filled = a * b * c := by
  rw [Determinant_filled]
  simp only [TMatrix3.ofParams]
  ring

/-- C11 (failing input): the determinant of `TMatrix3(2,0,0, 0,3,0, 0,0,4)`
built in zeroed memory is 0, not 24, and that of the identity built by hand
there is 0, not 1: `Determinant` reads the array, which the constructor does
not write, so its value is the same whatever `a`, `b`, `c` are. -/
theorem Determinant_diagonal_reads_storage :
    Determinant (TMatrix3.ofParams (fun _ _ => (0 : ℚ)) 2 0 0 0 3 0 0 0 4) = 0 ∧
      Determinant (TMatrix3.identityByHand (fun _ _ => (0 : ℚ))) = 0 ∧
      ∀ (storage : Fin 3 → Fin 3 → ℚ) (a b c : ℚ),
        Determinant (TMatrix3.ofParams storage a 0 0 0 b 0 0 0 c) =
          Determinant (TMatrix3.ofParams storage 0 0 0 0 0 0 0 0 0) := by
  refine ⟨?_, ?_, fun _ _ _ _ => rfl⟩
  · simp [Determinant, TMatrix3.ofParams_get]
  · simp [Determinant, TMatrix3.identityByHand, TMatrix3.ofParams_get]

/-! ## Constructors and storage -/

/-- C12 (failing input): the accessor of the matrix built from per-element
parameters reads the content that the memory of the object had, not the
parameters; for `TMatrix3(1,2,3, 4,5,6, 7,8,9)` in zeroed memory `M(0,0)` is 0
and `M[0]` is `(0,0,0)`, while the column member `c0` is `(1,4,7)`. -/
theorem ofParams_accessor_reads_storage :
    (∀ (storage : Fin 3 → Fin 3 → ℚ) (n00 n01 n02 n10 n11 n12 n20 n21 n22 : ℚ)
        (r c : Fin 3),
        (TMatrix3.ofParams storage n00 n01 n02 n10 n11 n12 n20 n21 n22).get r c =
          storage c r) ∧
      (TMatrix3.ofParams (fun _ _ => (0 : ℚ)) 1 2 3 4 5 6 7 8 9).get 0 0 = 0 ∧
      (TMatrix3.ofParams (fun _ _ => (0 : ℚ)) 1 2 3 4 5 6 7 8 9).col 0 = ⟨0, 0, 0⟩ ∧
      (TMatrix3.ofParams (fun _ _ => (0 : ℚ)) 1 2 3 4 5 6 7 8 9).c0 = ⟨1, 4, 7⟩ :=
  ⟨fun _ _ _ _ _ _ _ _ _ _ _ _ => rfl, rfl, rfl, rfl⟩

/-- C13: for every row-major array `fields`, the matrix built from the array
is the matrix built from the same values as per-element parameters, and in
both the column `c` is `(fields[0][c], fields[1][c], fields[2][c])`. -/
theorem ofFields_eq_ofParams {α : Type} (storage : Fin 3 → Fin 3 → α)
    (fields : Fin 3 → Fin 3 → α) :
    TMatrix3.ofFields storage fields =
        TMatrix3.ofParams storage (fields 0 0) (fields 0 1) (fields 0 2)
          (fields 1 0) (fields 1 1) (fields 1 2)
          (fields 2 0) (fields 2 1) (fields 2 2) ∧
      ∀ c : Fin 3,
        (TMatrix3.ofFields storage fields).column c =
            ⟨fields 0 c, fields 1 c, fields 2 c⟩ ∧
        (TMatrix3.ofParams storage (fields 0 0) (fields 0 1) (fields 0 2)
          (fields 1 0) (fields 1 1) (fields 1 2)
          (fields 2 0) (fields 2 1) (fields 2 2)).column c =
            ⟨fields 0 c, fields 1 c, fields 2 c⟩ := by
  refine ⟨rfl, ?_⟩
  intro c
  fin_cases c <;> exact ⟨rfl, rfl⟩

/-- C14 (failing input): `TMatrix3(1,2,3, 4,5,6, 7,8,9)` built in memory whose
`data` array holds zeros.  The constructor leaves `data` as it was, so
`data[0][0]` is 0 while component 0 of the column `c0` is 1; a write of 5 to
that component is not seen in `data[0][0]`, and a write of 5 to `data[0][0]` is
not seen in the column. -/
theorem data_not_aliased_with_columns :
    (∀ storage : Fin 3 → Fin 3 → ℚ,
        (TMatrix3.ofParams storage 1 2 3 4 5 6 7 8 9).data = storage) ∧
      (TMatrix3.ofParams (fun _ _ => (0 : ℚ)) 1 2 3 4 5 6 7 8 9).data 0 0 = 0 ∧
      ((TMatrix3.ofParams (fun _ _ => (0 : ℚ)) 1 2 3 4 5 6 7 8 9).column 0).comp 0 = 1 ∧
      ((TMatrix3.ofParams (fun _ _ => (0 : ℚ)) 1 2 3 4 5 6 7 8 9).writeColumn 0 0 5).data
        0 0 = 0 ∧
      ((((TMatrix3.ofParams (fun _ _ => (0 : ℚ)) 1 2 3 4 5 6 7 8 9).writeColumn 0 0
        5).column 0).comp 0 = 5) ∧
      ((TMatrix3.ofParams (fun _ _ => (0 : ℚ)) 1 2 3 4 5 6 7 8 9).set 0 0 5).data
        0 0 = 5 ∧
      ((((TMatrix3.ofParams (fun _ _ => (0 : ℚ)) 1 2 3 4 5 6 7 8 9).set 0 0
        5).column 0).comp 0 = 1) := by
  refine ⟨fun _ => rfl, rfl, rfl, rfl, rfl, ?_, rfl⟩
  simp [TMatrix3.set]

/-! ## Componentwise operators -/

/-- Every component of the columns of `m1 - m2` is the difference of the two
components at that place. -/
theorem operatorSub_entry {α : Type} [Sub α] (storage : Fin 3 → Fin 3 → α)
    (m1 m2 : TMatrix3 α) (r c : Fin 3) :
    (TMatrix3.operatorSub storage m1 m2).entry r c = m1.entry r c - m2.entry r c := by
  fin_cases r <;> fin_cases c <;> rfl

/-- C16: for every 3x3 matrix `m` and scalar `s`, `m * s` scales every column
by `s`: component `r` of column `c` of `m * s` is that of `m` times `s`. -/
theorem operatorMulScalar_get {α : Type} [Mul α] (storage : Fin 3 → Fin 3 → α)
    (m : TMatrix3 α) (s : α) :
    (∀ i : Fin 3,
        (TMatrix3.operatorMulScalar storage m s).column i =
          (m.column i).operatorMulScalar s) ∧
      ∀ r c : Fin 3,
        (TMatrix3.operatorMulScalar storage m s).entry r c = m.entry r c * s := by
  constructor
  · intro i
    fin_cases i <;> rfl
  · intro r c
    fin_cases r <;> fin_cases c <;> rfl

/-- C17: the identity built by hand is not neutral for the matrix-by-matrix
`*`: there is a matrix `M`, namely `TMatrix3(1,2,3, 4,5,6, 7,8,9)` (array
filled), for which `I * M` is not `M`, neither member for member, whatever the
arrays hold, nor under `==` with tolerance 1/1000 once the array of the result
is filled from its columns. -/
theorem operatorMul_identity_not_neutral :
    ∃ M : TMatrix3 ℚ,
      (∀ storage storageI : Fin 3 → Fin 3 → ℚ,
        TMatrix3.operatorMul storage (TMatrix3.identityByHand storageI) M ≠ M) ∧
        TMatrix3.operatorEq (1 / 1000)
          (TMatrix3.operatorMul (fun _ _ => 0) (TMatrix3.identityByHand (fun _ _ => 0))
            M).filled M = false := by
  refine ⟨(TMatrix3.ofParams (fun _ _ => 0) 1 2 3 4 5 6 7 8 9).filled, ?_, ?_⟩
  · intro storage storageI h
    have h00 := congrArg (fun N : TMatrix3 ℚ => N.entry 0 0) h
    simp only [operatorMul_entry] at h00
    norm_num [TMatrix3.identityByHand, TMatrix3.ofParams, TMatrix3.filled, TMatrix3.entry,
      TMatrix3.column, TVector3.comp] at h00
  · rw [← Bool.not_eq_true]
    intro h
    simp only [TMatrix3.operatorEq, TVector3.operatorEq, Bool.and_eq_true,
      decide_eq_true_eq] at h
    have h00 := h.1.1.1.1
    simp only [TMatrix3.filled_col] at h00
    norm_num [TMatrix3.operatorMul, TMatrix3.ofColumns, TVector3.operatorAdd,
      TMatrix3.identityByHand, TMatrix3.ofParams, TMatrix3.filled, TMatrix3.column] at h00

/-! ## The pure forms leave their argument unchanged -/

/-- C18: after `Inverse(M)` and after `Transpose(M)` the argument holds the
same nine entries as before the call; the values returned are those of
`Inverse` and `Transpose`. -/
theorem Inverse_Transpose_frame {α : Type} [Field α] (ss : α)
    (storage : Fin 3 → Fin 3 → α) (M : TMatrix3 α) :
    ((InverseFrame ss storage M).2 = M ∧
        (InverseFrame ss storage M).1 = Inverse ss storage M) ∧
      ((TransposeFrame storage M).2 = M ∧
        (TransposeFrame storage M).1 = Transpose storage M) :=
  ⟨⟨rfl, rfl⟩, ⟨rfl, rfl⟩⟩

/-! ## 2D vectors: interpolation and reflection -/

/-- C19: for all 2D vectors `a`, `b` and every scalar `t`, `Lerp a b t` is
`LerpUnclamped a b` at `t` clamped to `[0, 1]`, with `LerpUnclamped a b t =
a + t*(b - a)`; `Lerp((0,0),(10,10),0.5) = (5,5)`,
`Lerp((0,0),(10,10),1.5) = (10,10)` and
`LerpUnclamped((0,0),(10,10),1.5) = (15,15)`. -/
theorem Lerp_eq_LerpUnclamped_clamp {α : Type} [LinearOrderedField α]
    (a b : TVector2 α) (t : α) :
    TVector2.Lerp a b t = TVector2.LerpUnclamped a b (max 0 (min t 1)) ∧
      TVector2.LerpUnclamped a b t = ⟨a.x + t * (b.x - a.x), a.y + t * (b.y - a.y)⟩ ∧
      TVector2.Lerp (⟨0, 0⟩ : TVector2 α) ⟨10, 10⟩ (1 / 2) = ⟨5, 5⟩ ∧
      TVector2.Lerp (⟨0, 0⟩ : TVector2 α) ⟨10, 10⟩ (3 / 2) = ⟨10, 10⟩ ∧
      TVector2.LerpUnclamped (⟨0, 0⟩ : TVector2 α) ⟨10, 10⟩ (3 / 2) = ⟨15, 15⟩ := by
  refine ⟨?_, rfl, ?_, ?_, ?_⟩
  · unfold TVector2.Lerp
    by_cases h0 : t < 0
    · have h1 : t ≤ 1 := h0.le.trans zero_le_one
      simp [h0, min_eq_left h1, max_eq_left h0.le]
    · by_cases h1 : 1 < t
      · simp [h0, h1, min_eq_right h1.le]
      · simp [h0, h1, min_eq_left (not_lt.mp h1), max_eq_right (not_lt.mp h0)]
  · have h0 : ¬ ((1 : α) / 2 < 0) := not_lt.mpr (by positivity)
    have h1 : ¬ ((1 : α) < 1 / 2) := not_lt.mpr (by norm_num)
    simp only [TVector2.Lerp, TVector2.LerpUnclamped, h0, h1, if_false]
    norm_num
  · have h0 : ¬ ((3 : α) / 2 < 0) := not_lt.mpr (by positivity)
    have h1 : (1 : α) < 3 / 2 := by norm_num
    simp only [TVector2.Lerp, TVector2.LerpUnclamped, h0, h1, if_false, if_true]
    norm_num
  · simp only [TVector2.LerpUnclamped]
    norm_num

/-- C20: for every 2D vector `v` and normal `n` of unit length (`n·n = 1`),
`Reflect v n` is `v - 2*(v·n)*n` and reflecting twice gives `v` back;
`Reflect((1,-1),(0,1)) = (1,1)`. -/
theorem Reflect_formula_involutive {α : Type} [Field α] (v n : TVector2 α)
    (hn : TVector2.DotP n n = 1) :
    TVector2.Reflect v n =
        ⟨v.x - 2 * (v.x * n.x + v.y * n.y) * n.x, v.y - 2 * (v.x * n.x + v.y * n.y) * n.y⟩ ∧
      TVector2.Reflect (TVector2.Reflect v n) n = v ∧
      TVector2.Reflect (⟨1, -1⟩ : TVector2 α) ⟨0, 1⟩ = ⟨1, 1⟩ := by
  obtain ⟨vx, vy⟩ := v
  obtain ⟨nx, ny⟩ := n
  simp only [TVector2.DotP] at hn
  refine ⟨rfl, ?_, ?_⟩
  · simp only [TVector2.Reflect, TVector2.DotP, TVector2.mk.injEq]
    constructor
    · linear_combination (4 * (vx * nx + vy * ny) * nx) * hn
    · linear_combination (4 * (vx * nx + vy * ny) * ny) * hn
  · simp only [TVector2.Reflect, TVector2.DotP, TVector2.mk.injEq]
    constructor <;> ring

/-- Witness of C20: `v = (1,-1)` and the unit normal `n = (0,1)`. -/
theorem Reflect_formula_involutive_witness :
    TVector2.DotP (⟨0, 1⟩ : TVector2 ℚ) ⟨0, 1⟩ = 1 ∧
      TVector2.Reflect (⟨1, -1⟩ : TVector2 ℚ) ⟨0, 1⟩ =
        ⟨1 - 2 * (1 * 0 + -1 * 1) * 0, -1 - 2 * (1 * 0 + -1 * 1) * 1⟩ ∧
      TVector2.Reflect (TVector2.Reflect (⟨1, -1⟩ : TVector2 ℚ) ⟨0, 1⟩) ⟨0, 1⟩ = ⟨1, -1⟩ ∧
      TVector2.Reflect (⟨1, -1⟩ : TVector2 ℚ) ⟨0, 1⟩ = ⟨1, 1⟩ :=
  ⟨by norm_num [TVector2.DotP],
    Reflect_formula_involutive ⟨1, -1⟩ ⟨0, 1⟩ (by norm_num [TVector2.DotP])⟩

/-- C21: for all 2D vectors, `v1 * v2` is a scalar, equal to `DotP(v1, v2)`,
which is `v1.x*v2.x + v1.y*v2.y`. -/
theorem TVector2_operatorMul_eq_DotP {α : Type} [Add α] [Mul α] (v1 v2 : TVector2 α) :
    TVector2.operatorMul v1 v2 = TVector2.DotP v1 v2 ∧
      TVector2.DotP v1 v2 = v1.x * v2.x + v1.y * v2.y :=
  ⟨rfl, rfl⟩

/-! ## Determinant: triple product and transpose -/

/-- For every 3x3 matrix, `Determinant` is the scalar triple product of the
three vectors that `operator[]` reads, as `Inverse` and `InverseV` read them. -/
theorem Determinant_eq_triple_product {α : Type} [CommRing α] (M : TMatrix3 α) :
    Determinant M = TVector3.DotP (M.col 0) (CrossP (M.col 1) (M.col 2)) := by
  simp only [Determinant, TMatrix3.get, TMatrix3.col, TVector3.DotP, CrossP]
  ring

/-- For a matrix whose array was filled from its columns, `Determinant` is the
scalar triple product of the column members. -/
theorem Determinant_filled_eq_triple_product {α : Type} [CommRing α] (M : TMatrix3 α) :
    Determinant M.filled = TVector3.DotP M.c0 (CrossP M.c1 M.c2) := by
  rw [Determinant_filled]
  simp only [TVector3.DotP, CrossP]
  ring

/-- C22 (failing input): for `TMatrix3(2,0,0, 0,3,0, 0,0,4)` built in zeroed
memory `Determinant` is 0 while the triple product of the columns `c0`, `c1`,
`c2` is 24; and `Inverse` does not divide the cross-product rows by the
determinant: no value of `ss` gives the rows `(4,0,0)/8, ...` for
`TMatrix3(2,0,0, 0,2,0, 0,0,2)` and the rows `(1,0,0)/1, ...` for the identity
built by hand (arrays filled). -/
theorem Determinant_triple_product_diverges :
    Determinant (TMatrix3.ofParams (fun _ _ => (0 : ℚ)) 2 0 0 0 3 0 0 0 4) = 0 ∧
      TVector3.DotP (TMatrix3.ofParams (fun _ _ => (0 : ℚ)) 2 0 0 0 3 0 0 0 4).c0
        (CrossP (TMatrix3.ofParams (fun _ _ => (0 : ℚ)) 2 0 0 0 3 0 0 0 4).c1
          (TMatrix3.ofParams (fun _ _ => (0 : ℚ)) 2 0 0 0 3 0 0 0 4).c2) = 24 ∧
      ∀ (ss : ℚ) (storage : Fin 3 → Fin 3 → ℚ),
        ¬ (Inverse ss storage (TMatrix3.ofParams storage 2 0 0 0 2 0 0 0 2).filled =
              TMatrix3.ofParams storage (4 / 8) 0 0 0 (4 / 8) 0 0 0 (4 / 8) ∧
            Inverse ss storage (TMatrix3.identityByHand storage).filled =
              TMatrix3.ofParams storage (1 / 1) 0 0 0 (1 / 1) 0 0 0 (1 / 1)) := by
  refine ⟨?_, ?_, ?_⟩
  · simp [Determinant, TMatrix3.ofParams_get]
  · norm_num [TVector3.DotP, CrossP, TMatrix3.ofParams]
  · rintro ss storage ⟨h2, h1⟩
    have e2 := congrArg (fun N : TMatrix3 ℚ => N.c0.x) h2
    have e1 := congrArg (fun N : TMatrix3 ℚ => N.c0.x) h1
    simp only [Inverse_eq, TMatrix3.filled_col, TMatrix3.column, TMatrix3.ofParams,
      TMatrix3.identityByHand, CrossP] at e1 e2
    norm_num at e1 e2
    rw [e1] at e2
    norm_num at e2

/-- The determinant of the matrix built by `Transpose`, once its array is
filled from its columns, is the determinant of the argument. -/
theorem Determinant_Transpose_filled {α : Type} [CommRing α] (storage : Fin 3 → Fin 3 → α)
    (M : TMatrix3 α) : Determinant (Transpose storage M).filled = Determinant M := by
  rw [Determinant_filled]
  simp only [Determinant, Transpose, TMatrix3.ofParams]
  ring

/-- C25 (failing input): for `M = TMatrix3(2,0,0, 0,2,0, 0,0,2)`, array filled,
`Determinant(M)` is 8 while `Determinant(Transpose(M))`, the result being in
zeroed memory, is 0: the determinant of the result is read from the array that
the constructor does not write, and is the same whatever the argument. -/
theorem Determinant_Transpose_reads_storage :
    Determinant (TMatrix3.ofParams (fun _ _ => (0 : ℚ)) 2 0 0 0 2 0 0 0 2).filled = 8 ∧
      Determinant (Transpose (fun _ _ => 0)
        (TMatrix3.ofParams (fun _ _ => (0 : ℚ)) 2 0 0 0 2 0 0 0 2).filled) = 0 ∧
      ∀ (storage : Fin 3 → Fin 3 → ℚ) (M N : TMatrix3 ℚ),
        Determinant (Transpose storage M) = Determinant (Transpose storage N) := by
  refine ⟨?_, ?_, fun _ _ _ => rfl⟩
  · rw [Determinant_filled]
    norm_num [TMatrix3.ofParams]
  · simp [Determinant, Transpose_get]

/-! ## Compound assignments against the binary operators -/

/-- C23 (failing input): for `m1 = TMatrix3(1,2,3, 4,5,6, 7,8,9)` and `m2` the
identity built by hand, `m1 *= m2` stores `TMatrix3(1,0,0, 0,5,0, 0,0,9)`, the
componentwise product, and `m1 * m2` returns `TMatrix3(2,2,3, 4,6,6, 7,8,10)`,
the componentwise sum: the two differ. -/
theorem operatorMulAssign_ne_operatorMul_at_input :
    ∀ storage : Fin 3 → Fin 3 → ℚ,
      TMatrix3.operatorMulAssign (TMatrix3.ofParams storage 1 2 3 4 5 6 7 8 9)
          (TMatrix3.identityByHand storage) = TMatrix3.ofParams storage 1 0 0 0 5 0 0 0 9 ∧
        TMatrix3.operatorMul storage (TMatrix3.ofParams storage 1 2 3 4 5 6 7 8 9)
          (TMatrix3.identityByHand storage) = TMatrix3.ofParams storage 2 2 3 4 6 6 7 8 10 ∧
        TMatrix3.operatorMulAssign (TMatrix3.ofParams storage 1 2 3 4 5 6 7 8 9)
            (TMatrix3.identityByHand storage) ≠
          TMatrix3.operatorMul storage (TMatrix3.ofParams storage 1 2 3 4 5 6 7 8 9)
            (TMatrix3.identityByHand storage) := by
  intro storage
  refine ⟨?_, ?_, ?_⟩
  · norm_num [TMatrix3.operatorMulAssign, TVector3.operatorMulAssign, TMatrix3.ofParams,
      TMatrix3.identityByHand]
  · norm_num [TMatrix3.operatorMul, TMatrix3.ofColumns, TVector3.operatorAdd,
      TMatrix3.ofParams, TMatrix3.identityByHand]
  · intro h
    have h00 := congrArg (fun N : TMatrix3 ℚ => N.entry 0 0) h
    simp only [operatorMul_entry, operatorMulAssign_entry] at h00
    norm_num [TMatrix3.identityByHand, TMatrix3.ofParams, TMatrix3.entry, TMatrix3.column,
      TVector3.comp] at h00

/-- The value returned by `m1 -= m2`, a copy of the new content of `m1`, is
the matrix `m1 - m2`. -/
theorem operatorSubAssign_eq_operatorSub {α : Type} [Sub α] (storage : Fin 3 → Fin 3 → α)
    (m1 m2 : TMatrix3 α) :
    TMatrix3.copy storage (TMatrix3.operatorSubAssign m1 m2) =
      TMatrix3.operatorSub storage m1 m2 :=
  rfl

/-- The value returned by `m += s`, a copy of the new content of `m`, is the
matrix `m + s`. -/
theorem operatorAddAssignScalar_eq_operatorAddScalar {α : Type} [Add α]
    (storage : Fin 3 → Fin 3 → α) (m : TMatrix3 α) (s : α) :
    TMatrix3.copy storage (TMatrix3.operatorAddAssignScalar m s) =
      TMatrix3.operatorAddScalar storage m s :=
  rfl

/-- If the name `m1` in the body of `operator- (m, s)` stands for the argument
`m`, the value returned by `m -= s` is the matrix `m - s`. -/
theorem operatorSubAssignScalar_eq_operatorSubScalar {α : Type} [Sub α]
    (storage : Fin 3 → Fin 3 → α) (m : TMatrix3 α) (s : α) :
    TMatrix3.copy storage (TMatrix3.operatorSubAssignScalar m s) =
      TMatrix3.operatorSubScalar storage m m s :=
  rfl

/-- If the name `ss` in the body of `operator*= (m1, s)` stands for the argument
`s`, the value returned by `m *= s` is the matrix `m * s`. -/
theorem operatorMulAssignScalar_eq_operatorMulScalar {α : Type} [Mul α]
    (storage : Fin 3 → Fin 3 → α) (m : TMatrix3 α) (s : α) :
    TMatrix3.copy storage (TMatrix3.operatorMulAssignScalar s m s) =
      TMatrix3.operatorMulScalar storage m s :=
  rfl

/-- C24 (failing input): for `m = TMatrix3(1,2,3, 4,5,6, 7,8,9)`, no value of the
undeclared `ss` makes `m *= s` store `m * s` both for `s = 2` and for `s = 3`;
and `m - 1` is built from the undeclared `m1`, the same matrix for this `m` and
for the identity built by hand, while `m -= 1` stores different matrices for
the two. -/
theorem compound_assignment_diverges_at_input :
    ∀ storage : Fin 3 → Fin 3 → ℚ,
      (∀ ss : ℚ,
        ¬ (TMatrix3.operatorMulAssignScalar ss (TMatrix3.ofParams storage 1 2 3 4 5 6 7 8 9) 2 =
              TMatrix3.operatorMulScalar storage
                (TMatrix3.ofParams storage 1 2 3 4 5 6 7 8 9) 2 ∧
            TMatrix3.operatorMulAssignScalar ss (TMatrix3.ofParams storage 1 2 3 4 5 6 7 8 9) 3 =
              TMatrix3.operatorMulScalar storage
                (TMatrix3.ofParams storage 1 2 3 4 5 6 7 8 9) 3)) ∧
      (∀ m1 : TMatrix3 ℚ,
        TMatrix3.operatorSubScalar storage m1 (TMatrix3.ofParams storage 1 2 3 4 5 6 7 8 9) 1 =
          TMatrix3.operatorSubScalar storage m1 (TMatrix3.identityByHand storage) 1) ∧
      TMatrix3.operatorSubAssignScalar (TMatrix3.ofParams storage 1 2 3 4 5 6 7 8 9) 1 ≠
        TMatrix3.operatorSubAssignScalar (TMatrix3.identityByHand storage) 1 := by
  intro storage
  refine ⟨?_, fun _ => rfl, ?_⟩
  · rintro ss ⟨h2, h3⟩
    have e2 := congrArg (fun N : TMatrix3 ℚ => N.c0.x) h2
    have e3 := congrArg (fun N : TMatrix3 ℚ => N.c0.x) h3
    simp only [TMatrix3.operatorMulAssignScalar, TVector3.operatorMulAssignScalar,
      TMatrix3.operatorMulScalar, TVector3.operatorMulScalar, TMatrix3.ofColumns,
      TMatrix3.ofParams] at e2 e3
    rw [e2] at e3
    norm_num at e3
  · intro h
    have e := congrArg (fun N : TMatrix3 ℚ => N.c1.x) h
    norm_num [TMatrix3.operatorSubAssignScalar, TVector3.operatorSubScalar,
      TMatrix3.identityByHand, TMatrix3.ofParams] at e

/-! ## Determinant of the inverse, inverse of the inverse -/

/-- The determinant of the Mathlib matrix of the entries is `Determinant`. -/
theorem det_toMatrix {α : Type} [CommRing α] (M : TMatrix3 α) :
    Matrix.det M.toMatrix = Determinant M := by
  rw [Matrix.det_fin_three]
  simp only [Determinant, TMatrix3.toMatrix, Matrix.of_apply]
  ring

/-- With the scale factor of `operator*=` equal to `1 / Determinant M`, and
with the array of the result filled from its columns, the determinant of the
matrix built by `Inverse` is `1 / Determinant M`. -/
theorem Determinant_Inverse_of_scale {α : Type} [Field α] (storage : Fin 3 → Fin 3 → α)
    (M : TMatrix3 α) (hdet : Determinant M ≠ 0) :
    Determinant (Inverse (1 / Determinant M) storage M).filled = 1 / Determinant M := by
  have h := congrArg Matrix.det (Inverse_mul_of_scale storage M hdet).1
  rw [Matrix.det_mul, Matrix.det_one, det_toMatrix, det_toMatrix] at h
  exact eq_one_div_of_mul_eq_one_left h

/-- With the scale factor of each `operator*=` equal to one over the
determinant of the matrix being inverted, and with the arrays of the results
filled from their columns, `Inverse` applied twice to an invertible matrix
gives back the entries of the matrix. -/
theorem Inverse_Inverse_of_scale {α : Type} [Field α] (storage : Fin 3 → Fin 3 → α)
    (M : TMatrix3 α) (hdet : Determinant M ≠ 0) :
    (Inverse (1 / Determinant (Inverse (1 / Determinant M) storage M).filled) storage
      (Inverse (1 / Determinant M) storage M).filled).filled.toMatrix = M.toMatrix := by
  have hdet2 : Determinant (Inverse (1 / Determinant M) storage M).filled ≠ 0 := by
    rw [Determinant_Inverse_of_scale storage M hdet]
    exact one_div_ne_zero hdet
  have hB := (Inverse_mul_of_scale storage (Inverse (1 / Determinant M) storage M).filled
    hdet2).1
  have hA := (Inverse_mul_of_scale storage M hdet).1
  calc (Inverse (1 / Determinant (Inverse (1 / Determinant M) storage M).filled) storage
          (Inverse (1 / Determinant M) storage M).filled).filled.toMatrix
      = (Inverse (1 / Determinant (Inverse (1 / Determinant M) storage M).filled) storage
          (Inverse (1 / Determinant M) storage M).filled).filled.toMatrix *
          ((Inverse (1 / Determinant M) storage M).filled.toMatrix * M.toMatrix) := by
        rw [hA, mul_one]
    _ = M.toMatrix := by rw [← mul_assoc, hB, one_mul]

/-- C26 (failing input): on `TMatrix3(2,0,0, 0,2,0, 0,0,2)`, array filled, of
determinant 8, the determinant of `Inverse` (array of the result filled from
its columns) is `64 * ss^3` and `Inverse` applied twice gives
`diag(16 * ss^3)`; no value of `ss` makes the determinant `1/8` there and also
makes the determinant of `Inverse` of the identity built by hand equal to 1. -/
theorem Determinant_Inverse_scaled_by_ss :
    ∀ (ss : ℚ) (storage : Fin 3 → Fin 3 → ℚ),
      Determinant (Inverse ss storage
        (TMatrix3.ofParams storage 2 0 0 0 2 0 0 0 2).filled).filled = 64 * ss ^ 3 ∧
      1 / Determinant (TMatrix3.ofParams storage 2 0 0 0 2 0 0 0 2).filled = 1 / 8 ∧
      Inverse ss storage (Inverse ss storage
          (TMatrix3.ofParams storage 2 0 0 0 2 0 0 0 2).filled).filled =
        TMatrix3.ofParams storage (16 * ss ^ 3) 0 0 0 (16 * ss ^ 3) 0 0 0 (16 * ss ^ 3) ∧
      ¬ (Determinant (Inverse ss storage
            (TMatrix3.ofParams storage 2 0 0 0 2 0 0 0 2).filled).filled =
            1 / Determinant (TMatrix3.ofParams storage 2 0 0 0 2 0 0 0 2).filled ∧
          Determinant (Inverse ss storage (TMatrix3.identityByHand storage).filled).filled =
            1 / Determinant (TMatrix3.identityByHand storage).filled) := by
  intro ss storage
  have hInvD : Inverse ss storage (TMatrix3.ofParams storage 2 0 0 0 2 0 0 0 2).filled =
      TMatrix3.ofParams storage (4 * ss) 0 0 0 (4 * ss) 0 0 0 (4 * ss) := by
    rw [Inverse_eq]
    simp only [TMatrix3.filled_col, TMatrix3.column, TMatrix3.ofParams, CrossP]
    norm_num
  have hInvI : Inverse ss storage (TMatrix3.identityByHand storage).filled =
      TMatrix3.ofParams storage ss 0 0 0 ss 0 0 0 ss := by
    rw [Inverse_eq]
    simp only [TMatrix3.filled_col, TMatrix3.column, TMatrix3.ofParams,
      TMatrix3.identityByHand, CrossP]
    norm_num
  have hD : Determinant (Inverse ss storage
      (TMatrix3.ofParams storage 2 0 0 0 2 0 0 0 2).filled).filled = 64 * ss ^ 3 := by
    rw [hInvD, Determinant_filled_diagonal]
    ring
  have hI : Determinant (Inverse ss storage
      (TMatrix3.identityByHand storage).filled).filled = ss ^ 3 := by
    rw [hInvI, Determinant_filled_diagonal]
    ring
  have h8 : Determinant (TMatrix3.ofParams storage 2 0 0 0 2 0 0 0 2).filled = 8 := by
    rw [Determinant_filled_diagonal]
    norm_num
  have h1 : Determinant (TMatrix3.identityByHand storage).filled = 1 := by
    rw [TMatrix3.identityByHand, Determinant_filled_diagonal]
    norm_num
  refine ⟨hD, by rw [h8], ?_, ?_⟩
  · rw [hInvD, Inverse_eq]
    simp only [TMatrix3.filled_col, TMatrix3.column, TMatrix3.ofParams, CrossP,
      TMatrix3.mk.injEq, TVector3.mk.injEq, and_true]
    refine ⟨⟨?_, ?_, ?_⟩, ⟨?_, ?_, ?_⟩, ⟨?_, ?_, ?_⟩⟩ <;> ring
  rintro ⟨e1, e2⟩
  rw [hD, h8] at e1
  rw [hI, h1] at e2
  rw [e2] at e1
  norm_num at e1

/-! ## `!=` against `==` -/

/-- The vector equality is reflexive when the tolerance is positive. -/
theorem TVector3.operatorEq_self {α : Type} [LinearOrderedField α] (eps : α) (heps : 0 < eps)
    (v : TVector3 α) : TVector3.operatorEq eps v v = true := by
  simp [TVector3.operatorEq, heps]

/-- The vector equality does not depend on the order of its arguments. -/
theorem TVector3.operatorEq_comm {α : Type} [LinearOrderedField α] (eps : α)
    (v1 v2 : TVector3 α) : TVector3.operatorEq eps v1 v2 = TVector3.operatorEq eps v2 v1 := by
  simp only [TVector3.operatorEq, abs_sub_comm v1.x v2.x, abs_sub_comm v1.y v2.y,
    abs_sub_comm v1.z v2.z]

/-- C27: for all 3x3 matrices, given that the vector `!=` is the negation of
the vector `==`, `m1 != m2` is the negation of `m1 == m2`; and with a positive
tolerance `m == m` is true and `m1 == m2` has the value of `m2 == m1`. -/
theorem operatorNe_eq_not_operatorEq {α : Type} [LinearOrderedField α] (eps : α)
    (vne : TVector3 α → TVector3 α → Bool)
    (hvne : ∀ v1 v2 : TVector3 α, vne v1 v2 = !TVector3.operatorEq eps v1 v2)
    (heps : 0 < eps) (m1 m2 : TMatrix3 α) :
    TMatrix3.operatorNe vne m1 m2 = !TMatrix3.operatorEq eps m1 m2 ∧
      TMatrix3.operatorEq eps m1 m1 = true ∧
      (TMatrix3.operatorEq eps m1 m2 = true ↔ TMatrix3.operatorEq eps m2 m1 = true) := by
  refine ⟨?_, ?_, ?_⟩
  · simp only [TMatrix3.operatorNe, TMatrix3.operatorEq, hvne, Bool.not_and]
  · simp only [TMatrix3.operatorEq, TVector3.operatorEq_self eps heps, Bool.and_self]
  · simp only [TMatrix3.operatorEq, TVector3.operatorEq_comm eps (m1.col 0),
      TVector3.operatorEq_comm eps (m1.col 1), TVector3.operatorEq_comm eps (m1.col 2)]

/-- Witness of C27: tolerance 1/1000, the vector `!=` defined as the negation
of the vector `==`, `m1 = TMatrix3(1,2,3, 4,5,6, 7,8,9)` and `m2` the identity
built by hand, both with their arrays filled. -/
theorem operatorNe_eq_not_operatorEq_witness :
    (∀ v1 v2 : TVector3 ℚ,
        (fun a b => !TVector3.operatorEq (1 / 1000) a b) v1 v2 =
          !TVector3.operatorEq (1 / 1000) v1 v2) ∧
      (0 : ℚ) < 1 / 1000 ∧
      (TMatrix3.operatorNe (fun a b => !TVector3.operatorEq (1 / 1000 : ℚ) a b)
          (TMatrix3.ofParams (fun _ _ => 0) 1 2 3 4 5 6 7 8 9).filled
          (TMatrix3.identityByHand (fun _ _ => 0)).filled =
        !TMatrix3.operatorEq (1 / 1000 : ℚ)
          (TMatrix3.ofParams (fun _ _ => 0) 1 2 3 4 5 6 7 8 9).filled
          (TMatrix3.identityByHand (fun _ _ => 0)).filled ∧
      TMatrix3.operatorEq (1 / 1000 : ℚ) (TMatrix3.ofParams (fun _ _ => 0) 1 2 3 4 5 6 7 8 9).filled
          (TMatrix3.ofParams (fun _ _ => 0) 1 2 3 4 5 6 7 8 9).filled = true ∧
      (TMatrix3.operatorEq (1 / 1000 : ℚ) (TMatrix3.ofParams (fun _ _ => 0) 1 2 3 4 5 6 7 8 9).filled
          (TMatrix3.identityByHand (fun _ _ => 0)).filled = true ↔
        TMatrix3.operatorEq (1 / 1000 : ℚ) (TMatrix3.identityByHand (fun _ _ => 0)).filled
          (TMatrix3.ofParams (fun _ _ => 0) 1 2 3 4 5 6 7 8 9).filled = true)) :=
  ⟨fun _ _ => rfl, by norm_num,
    operatorNe_eq_not_operatorEq (1 / 1000) (fun a b => !TVector3.operatorEq (1 / 1000) a b)
      (fun _ _ => rfl) (by norm_num) (TMatrix3.ofParams (fun _ _ => 0) 1 2 3 4 5 6 7 8 9).filled
      (TMatrix3.identityByHand (fun _ _ => 0)).filled⟩

end Phanes
